import Mathlib

/-!
Verification of the minimap-js preview controller (class `MiniMap` plus its
jquery-ports helpers) against its natural-language specification.

The JavaScript source is shallowly embedded: JS numbers are modelled as
exact rationals (`ℚ`), JS strings as `String`, DOM subtrees as a small tree
type, and the stateful pieces (the animated-scroll timer, the scroll
handler) as explicit state-passing functions.  Each definition carries a
reference to the source lines it translates.
-/

attribute [local semireducible] Rat.add Rat.sub Rat.mul Rat.inv Rat.ofScientific

deriving instance DecidableEq for Except

namespace Minimap

/-! ## JS number primitives -/

/-- Truncation toward zero, the rounding used by JS `parseInt` when it is
applied to a finite number (as in `parseInt(r)`, `parseInt(distance / unitScroll)`
in `scrollTop`) and the first step of `ToInt32`. -/
def jsTrunc (q : ℚ) : ℤ :=
  if 0 ≤ q then ⌊q⌋ else -⌊-q⌋

/-- JS `parseInt` on a finite number (magnitude below `1e21`, the range in
which number-to-string round-trips through plain decimal notation):
truncation toward zero. -/
def jsParseIntNum (q : ℚ) : ℤ :=
  jsTrunc q

/-- JS `ToInt32` (the coercion performed by `value | 0` in the
`smoothScrollDelay` validator): truncate toward zero, then reduce
modulo `2^32` into the signed range `[-2^31, 2^31)`. -/
def toInt32 (q : ℚ) : ℤ :=
  if jsTrunc q % 4294967296 < 2147483648 then jsTrunc q % 4294967296
  else jsTrunc q % 4294967296 - 4294967296

/-! ## JS values

The validators receive arbitrary JS values.  We model the value universe
actually exercised by the configuration record: finite numbers, booleans,
strings and functions.  (`NaN`/`Infinity` literals and numeric strings are
outside this universe; no claim depends on them.) -/

inductive JSVal where
  | num (q : ℚ)
  | bool (b : Bool)
  | str (s : String)
  | fn
deriving DecidableEq

/-- `isNumeric` from jquery-ports: true exactly for finite numbers
(within the modelled value universe). -/
def isNumeric : JSVal → Bool
  | .num _ => true
  | _ => false

/-- `isFunction` from jquery-ports. -/
def isFunction : JSVal → Bool
  | .fn => true
  | _ => false

/-- JS falsiness (`!value` in the `onPreviewChange` validator):
`0`, `false` and the empty string are falsy; functions are truthy. -/
def jsFalsy : JSVal → Bool
  | .num q => q == 0
  | .bool b => !b
  | .str s => s == ""
  | .fn => false

/-- Rendering of a JS value into an error message (`'...' + value`).
Number rendering abstracts JS `ToString` (exact digit strings for the
integer-valued numbers the claims use). -/
def jsShow : JSVal → String
  | .num q => toString q
  | .bool b => if b then "true" else "false"
  | .str s => s
  | .fn => "function"

/-- Numeric payload of a value.  Only consulted after `isNumeric` has
succeeded (JS `||` short-circuits, so the comparisons in the validators
never see a non-number); the default `0` is never reachable in context. -/
def numOf : JSVal → ℚ
  | .num q => q
  | _ => 0

/-- `(value | 0) === value`: the value is a number that survives the
`ToInt32` round-trip.  Non-numbers always fail (the `|0` result is a
number, and `!==` is type-sensitive). -/
def int32RoundTrips : JSVal → Bool
  | .num q => decide ((toInt32 q : ℚ) = q)
  | _ => false

/-! ## Property validators (source lines 54–119) -/

/-- Validator for `allowClick`: must be literally `true` or `false`. -/
def allowClickV (v : JSVal) : Except String Unit :=
  if v ≠ JSVal.bool true ∧ v ≠ JSVal.bool false then
    .error ("Invalid allowClick: " ++ jsShow v)
  else .ok ()

/-- Validator for `fadeHover`: must be literally `true` or `false`. -/
def fadeHoverV (v : JSVal) : Except String Unit :=
  if v ≠ JSVal.bool true ∧ v ≠ JSVal.bool false then
    .error ("Invalid fadeHover: " ++ jsShow v)
  else .ok ()

/-- Validator for `hoverOpacity`: numeric, in `[0, 1]`. -/
def hoverOpacityV (v : JSVal) : Except String Unit :=
  if isNumeric v = false ∨ numOf v < 0 ∨ 1 < numOf v then
    .error ("Invalid hoverOpacity: " ++ jsShow v)
  else .ok ()

/-- Validator for `hoverFadeSpeed`: numeric, nonnegative. -/
def hoverFadeSpeedV (v : JSVal) : Except String Unit :=
  if isNumeric v = false ∨ numOf v < 0 then
    .error ("Invalid hoverFadeSpeed: " ++ jsShow v)
  else .ok ()

/-- Validator for `disableFind`: must be literally `true` or `false`. -/
def disableFindV (v : JSVal) : Except String Unit :=
  if v ≠ JSVal.bool true ∧ v ≠ JSVal.bool false then
    .error ("Invalid disableFind: " ++ jsShow v)
  else .ok ()

/-- Validator for `heightRatio`: numeric, in `(0, 1]`. -/
def heightRatioV (v : JSVal) : Except String Unit :=
  if isNumeric v = false ∨ numOf v ≤ 0 ∨ 1 < numOf v then
    .error ("Invalid heightRatio: " ++ jsShow v)
  else .ok ()

/-- Validator for `widthRatio`: numeric, in `(0, 0.5]`. -/
def widthRatioV (v : JSVal) : Except String Unit :=
  if isNumeric v = false ∨ numOf v ≤ 0 ∨ (0.5 : ℚ) < numOf v then
    .error ("Invalid widthRatio: " ++ jsShow v)
  else .ok ()

/-- Validator for `offsetHeightRatio`: numeric, in `[0, 0.9]`. -/
def offsetHeightRatioV (v : JSVal) : Except String Unit :=
  if isNumeric v = false ∨ numOf v < 0 ∨ (0.9 : ℚ) < numOf v then
    .error ("Invalid offsetHeightRatio: " ++ jsShow v)
  else .ok ()

/-- Validator for `offsetWidthRatio`: numeric, in `[0, 0.9]`. -/
def offsetWidthRatioV (v : JSVal) : Except String Unit :=
  if isNumeric v = false ∨ numOf v < 0 ∨ (0.9 : ℚ) < numOf v then
    .error ("Invalid offsetWidthRatio: " ++ jsShow v)
  else .ok ()

/-- Validator for `position`: membership in the `Set(['right', 'left'])`.
`Set.has` uses strict (and thus case-sensitive) string equality. -/
def positionV (v : JSVal) : Except String Unit :=
  if v = JSVal.str "right" ∨ v = JSVal.str "left" then .ok ()
  else .error ("Invalid position: " ++ jsShow v)

/-- Validator for `smoothScrollDelay`:
`((value | 0) !== value) || value < 4` throws.  `value < 4` is reached
only for numbers (the round-trip test already fails every non-number). -/
def smoothScrollDelayV (v : JSVal) : Except String Unit :=
  if int32RoundTrips v = false ∨ numOf v < 4 then
    .error ("Invalid smoothScrollDelay(in ms): " ++ jsShow v)
  else .ok ()

/-- Validator for `touch`: accepts everything. -/
def touchV (_ : JSVal) : Except String Unit := .ok ()

/-- Validator for `smoothScroll`: accepts everything. -/
def smoothScrollV (_ : JSVal) : Except String Unit := .ok ()

/-- Validator for `onPreviewChange`: must be truthy and callable. -/
def onPreviewChangeV (v : JSVal) : Except String Unit :=
  if jsFalsy v = true ∨ isFunction v = false then
    .error ("Invalid onPreviewChange: " ++ jsShow v)
  else .ok ()

/-- The `propValidators` table: one validator per known configuration key,
none for unknown keys. -/
def propValidators (key : String) : Option (JSVal → Except String Unit) :=
  if key = "allowClick" then some allowClickV
  else if key = "fadeHover" then some fadeHoverV
  else if key = "hoverOpacity" then some hoverOpacityV
  else if key = "hoverFadeSpeed" then some hoverFadeSpeedV
  else if key = "disableFind" then some disableFindV
  else if key = "heightRatio" then some heightRatioV
  else if key = "widthRatio" then some widthRatioV
  else if key = "offsetHeightRatio" then some offsetHeightRatioV
  else if key = "offsetWidthRatio" then some offsetWidthRatioV
  else if key = "position" then some positionV
  else if key = "smoothScrollDelay" then some smoothScrollDelayV
  else if key = "touch" then some touchV
  else if key = "smoothScroll" then some smoothScrollV
  else if key = "onPreviewChange" then some onPreviewChangeV
  else none

/-- Looking a key up in the table and running the validator on a value. -/
def runValidator (key : String) (v : JSVal) : Option (Except String Unit) :=
  (propValidators key).map (fun f => f v)

/-- `_validateProps` (lines 600–610): walk the key/value pairs in order;
a known key runs its validator (first failure propagates as the thrown
error), an unknown key throws `'Invalid validation property: ' + value`
— a message that names the rejected value but not the key. -/
def validateProps : List (String × JSVal) → Except String Unit
  | [] => .ok ()
  | (k, v) :: rest =>
    match propValidators k with
    | some f =>
      match f v with
      | .error e => .error e
      | .ok () => validateProps rest
    | none => .error ("Invalid validation property: " ++ jsShow v)

/-! ## Settings records (association lists keyed by field name) -/

/-- Value of a key in an association list (last writer wins is irrelevant:
the lists we build have unique keys). -/
def lookupVal (key : String) (l : List (String × JSVal)) : Option JSVal :=
  (l.find? (fun p => p.1 == key)).map (fun p => p.2)

/-- Overwrite the value stored under an existing key. -/
def setVal (key : String) (v : JSVal) (l : List (String × JSVal)) :
    List (String × JSVal) :=
  l.map (fun p => if p.1 == key then (key, v) else p)

/-- `Object.assign({}, defaults, options)`: defaults keys in order, with
option values overriding; option keys not present in the defaults are
appended (in option order). -/
def objectAssign (base over : List (String × JSVal)) : List (String × JSVal) :=
  base.map (fun p =>
    match lookupVal p.1 over with
    | some v => (p.1, v)
    | none => p) ++
  over.filter (fun p => (base.find? (fun q => q.1 == p.1)).isNone)

/-- The constructor's `defaults` object (lines 136–151), in source order.
Decimal literals are exact: `0.4 = 2/5`, `0.05 = 1/20`, `0.035 = 7/200`. -/
def defaultSettings : List (String × JSVal) :=
  [("allowClick", .bool true),
   ("fadeHover", .bool false),
   ("hoverOpacity", .num 0.4),
   ("hoverFadeSpeed", .num 0.5),
   ("heightRatio", .num 0.6),
   ("widthRatio", .num 0.05),
   ("offsetHeightRatio", .num 0.035),
   ("offsetWidthRatio", .num 0.035),
   ("position", .str "right"),
   ("touch", .bool true),
   ("smoothScroll", .bool true),
   ("smoothScrollDelay", .num 200),
   ("onPreviewChange", .fn),
   ("disableFind", .bool false)]

/-- JS `String.prototype.toLowerCase` on the ASCII strings used for
`position` (character-wise lowering of the underlying character list). -/
def jsToLowerCase (s : String) : String :=
  ⟨s.data.map Char.toLower⟩

/-- The constructor's settings phase (lines 153–157): merge options over
the defaults, lowercase `settings.position`, then `_validateProps`.
The merged `position` is always present (it has a default); a non-string
`position` would raise a `TypeError` at `.toLowerCase()` — modelled as an
error — before validation. -/
def constructorSettingsPhase (options : List (String × JSVal)) :
    Except String (List (String × JSVal)) :=
  let merged := objectAssign defaultSettings options
  match lookupVal "position" merged with
  | some (JSVal.str p) =>
    let merged2 := setVal "position" (JSVal.str (jsToLowerCase p)) merged
    match validateProps merged2 with
    | .error e => .error e
    | .ok () => .ok merged2
  | _ => .error "TypeError: settings.position.toLowerCase is not a function"

/-- `setPosition` (lines 629–641): the validator runs on the *raw*
argument — no lowercasing — and a thrown error aborts before the store.
Returns the stored position and whether the resize/restyle pass ran
(it runs exactly when the value changed). -/
def setPositionModel (stored : String) (p : String) :
    Except String (String × Bool) :=
  match positionV (.str p) with
  | .error e => .error e
  | .ok () => .ok (p, decide (stored ≠ p))

/-- `_genSetPropertyFunction` (lines 650–659): validate, then store, then
redraw if requested.  A validation error propagates before the store and
before any redraw — the `Except.error` result carries no new settings and
no layout pass.  (The `none` branch is unreachable: setters are generated
only for keys present in `propValidators`; in JS it would be a
`TypeError` at the call `validator(value)`.) -/
def genSetPropertyFunction (prop : String) (redraw : Bool)
    (settings : List (String × JSVal)) (value : JSVal) :
    Except String (List (String × JSVal) × Bool) :=
  match propValidators prop with
  | none => .error "TypeError: validator is not a function"
  | some f =>
    match f value with
    | .error e => .error e
    | .ok () => .ok (setVal prop value settings, redraw)

/-! ## DOM model

A document element is a class list plus a forest of children; the
document body is a forest of root elements.  (The forest is its own
inductive rather than a `List` so that the recursive functions below are
structural and compute inside the kernel.) -/

mutual

inductive DomTree where
  | mk (classes : List String) (children : DomForest)

inductive DomForest where
  | nil
  | cons (t : DomTree) (ts : DomForest)

end

/-- Class list of an element. -/
def DomTree.classes : DomTree → List String
  | .mk cs _ => cs

/-- Children of an element. -/
def DomTree.children : DomTree → DomForest
  | .mk _ ch => ch

/-- Whether an element carries a class. -/
def hasClass (c : String) (t : DomTree) : Bool :=
  t.classes.contains c

/-- Concatenation of two sibling forests. -/
def DomForest.append : DomForest → DomForest → DomForest
  | .nil, b => b
  | .cons t ts, b => .cons t (ts.append b)

mutual

/-- Number of elements in a tree (root included) carrying a class. -/
def countClass (c : String) : DomTree → Nat
  | .mk cls ch => (if cls.contains c then 1 else 0) + countClassF c ch

/-- Number of elements in a forest carrying a class. -/
def countClassF (c : String) : DomForest → Nat
  | .nil => 0
  | .cons t ts => countClass c t + countClassF c ts

end

mutual

/-- Number of elements matching the descendant selector
`.minimap .noselect` in a tree whose root has a `minimap`-classed
ancestor iff `anc` is true: an element matches when it carries
`noselect` and some proper ancestor (up to and including the search
root) carries `minimap`. -/
def countPairMatch (anc : Bool) : DomTree → Nat
  | .mk cls ch =>
    (if cls.contains "noselect" && anc then 1 else 0) +
      countPairMatchF (anc || cls.contains "minimap") ch

/-- `countPairMatch` over a forest of siblings sharing ancestor flag
`anc`. -/
def countPairMatchF (anc : Bool) : DomForest → Nat
  | .nil => 0
  | .cons t ts => countPairMatch anc t + countPairMatchF anc ts

end

/-- Whether one of the constructor's two removal selectors matches an
element whose ancestors satisfy `anc`: `.minimap .noselect` matches an
element carrying `noselect` under a `minimap`-classed ancestor, and
`.miniregion` matches by class alone. -/
def removedBySelectors (anc : Bool) (t : DomTree) : Bool :=
  (hasClass "noselect" t && anc) || hasClass "miniregion" t

mutual

/-- The clone-scrubbing steps of the constructor (lines 162–163):
`remove(selectAll('.minimap .noselect', miniElement))` followed by
`remove(selectAll('.miniregion', miniElement))`.  Both `selectAll` calls
search *descendants of the clone only* (the clone is detached, so the
`.minimap` ancestor of a match lies inside the clone, possibly at its
root).  Removing a matched node detaches its whole subtree; running the
two removals in sequence equals this single pass dropping every node
matching either selector and recursing into kept nodes (a kept node
keeps exactly its original ancestors, so relative matches are
unchanged). -/
def stripF (anc : Bool) : DomForest → DomForest
  | .nil => .nil
  | .cons t ts =>
    if removedBySelectors anc t then stripF anc ts
    else .cons (stripKeep anc t) (stripF anc ts)

/-- Scrubbing below a kept node: its children are searched with the
ancestor flag extended by the node's own `minimap` class. -/
def stripKeep (anc : Bool) : DomTree → DomTree
  | .mk cls ch => .mk cls (stripF (anc || cls.contains "minimap") ch)

end

/-- `cloneNode(baseElement)` followed by the two removals: a deep value
copy of the base element with matching descendants dropped (the clone
root itself is never a `selectAll` result, and it has no ancestors while
detached). -/
def cloneAndStrip (base : DomTree) : DomTree :=
  stripKeep false base

/-- `addClass(miniElement, 'minimap noselect')` (line 165): appends
`' minimap noselect'` to the class string, i.e. adds both classes
(assuming the clone does not already carry that exact class run). -/
def addMinimapNoselect (t : DomTree) : DomTree :=
  DomTree.mk (t.classes ++ ["minimap", "noselect"]) t.children

/-- The region indicator created at lines 186–187. -/
def regionNode : DomTree :=
  DomTree.mk ["miniregion"] .nil

/-- DOM effect of construction (lines 160–192) on the document body:
clone the base element, scrub the *clone*, tag it, then append the region
and the clone to the body.  Pre-existing body elements are never
touched. -/
def constructDom (body : DomForest) (base : DomTree) : DomForest :=
  body.append
    (.cons regionNode (.cons (addMinimapNoselect (cloneAndStrip base)) .nil))

/-- Construction = settings phase, then DOM phase (line 157 precedes
every DOM step, so a validation error yields no DOM mutation). -/
def constructRun (body : DomForest) (base : DomTree)
    (options : List (String × JSVal)) :
    Except String (List (String × JSVal) × DomForest) :=
  match constructorSettingsPhase options with
  | .error e => .error e
  | .ok settings => .ok (settings, constructDom body base)

/-! ## Find-suppression (`_disableFind`, lines 579–598) -/

/-- The decoy markup appended by `_disableFind` (line 590). -/
def decoySpan : List Char :=
  "<span style=\"position:absolute; right:-999999999px;\">.</span>".data

/-- The loop's tag flag after consuming one character: `'<'` raises it,
`'>'` clears it, anything else leaves it (lines 587–588). -/
def tagStop (stop : Bool) (c : Char) : Bool :=
  if c = '<' then true else if c = '>' then false else stop

/-- The `_disableFind` loop body on a character list: emit the character;
if the *updated* flag is clear append the decoy span; if the character is
a space append one extra space (lines 585–595, in that order). -/
def disableFindGo (stop : Bool) : List Char → List Char
  | [] => []
  | c :: cs =>
    let stop2 := tagStop stop c
    c :: ((if stop2 = false then decoySpan else []) ++
      (if c = ' ' then [' '] else []) ++ disableFindGo stop2 cs)

/-- `_disableFind` applied to one element's markup string. -/
def disableFindTransform (html : String) : String :=
  ⟨disableFindGo false html.data⟩

/-- Modelled from the claim's words (the transform the specification
describes, for comparison with the code's `disableFindGo`): one decoy
span after every character that is outside a tag and is neither a space
nor a tag boundary; `<`, `>` and the characters between them pass through
undecorated; no extra characters are introduced. -/
def specDisableFindGo (stop : Bool) : List Char → List Char
  | [] => []
  | c :: cs =>
    let stop2 := tagStop stop c
    c :: ((if stop2 = false ∧ c ≠ ' ' ∧ c ≠ '>' then decoySpan else []) ++
      specDisableFindGo stop2 cs)

/-- The tag flag after each successive character of the input. -/
def tagStates (stop : Bool) : List Char → List Bool
  | [] => []
  | c :: cs =>
    let stop2 := tagStop stop c
    stop2 :: tagStates stop2 cs

/-- Per-character emission of the code's transform, as a function of the
character and the updated tag flag: the character itself, then the decoy
span when the flag is clear (i.e. the character sits outside a tag or is
a closing `>`), then a duplicate of every space character. -/
def emitFor (c : Char) (stopAfter : Bool) : List Char :=
  c :: ((if stopAfter then [] else decoySpan) ++
    (if c = ' ' then [' '] else []))

/-! ## Scroll synchronizer (`scrollTop`, lines 515–571) -/

/-- Geometry read from the environment when `scrollTop` runs: viewport,
base element and region measurements plus the current scroll offsets. -/
structure Measures where
  winW : ℚ
  winH : ℚ
  baseW : ℚ
  baseH : ℚ
  baseOffsetTop : ℚ
  regionOuterH : ℚ
  baseOuterH : ℚ
  scrollX : ℚ
  scrollY : ℚ
deriving DecidableEq

/-- The settings fields `scrollTop` consults. -/
structure ScrollSettings where
  heightRatio : ℚ
  widthRatio : ℚ
  offsetHeightRatio : ℚ
  smoothScroll : Bool
  smoothScrollDelay : ℚ
deriving DecidableEq

/-- `_scale().x` (line 619). -/
def scaleX (m : Measures) (s : ScrollSettings) : ℚ :=
  m.winW / m.baseW * s.widthRatio

/-- `_scale().y` (line 620). -/
def scaleY (m : Measures) (s : ScrollSettings) : ℚ :=
  m.winH / m.baseH * s.heightRatio

/-- The raw target offset computed at line 525:
`(e.clientY - regionHeight / 2 - offsetTop + top) / scale.y`. -/
def scrollTarget (m : Measures) (s : ScrollSettings) (clientY : ℚ) : ℚ :=
  let offsetTop := m.winH * s.offsetHeightRatio
  let top := m.baseOffsetTop * scaleY m s
  (clientY - m.regionOuterH / 2 - offsetTop + top) / scaleY m s

/-- Line 532 exactly as written:
`target = Math.max(target, Math.min(target, maxTarget))`. -/
def clampTarget (target maxTarget : ℚ) : ℚ :=
  max target (min target maxTarget)

/-- Step-parameter selection of lines 536–547, returning
`(unitScroll, unitDelay)`.  In JS, `r = delay / distance` is `+Infinity`
when `distance = 0` (the configured delay is validated positive), which
takes the `r >= 4` branch; that case is split out because rational
division by zero yields `0` rather than infinity. -/
def stepParams (delay distance : ℚ) : ℚ × ℚ :=
  if distance = 0 then (1, 1)
  else
    let r := delay / distance
    if 4 ≤ r then (1, 1)
    else if 1 ≤ r then (((jsParseIntNum r : ℤ) : ℚ) * 4, 4)
    else (4 / r, 4)

/-- Modelled from the claim's words (the step-parameter rule the
specification states, for comparison with the code's `stepParams`):
`r = delay / distance`; `r ≥ 4` gives step `1`, interval `1`;
`4 > r ≥ 1` gives step `⌊r⌋ × 4`, interval `4`; `r < 1` gives step
`4 / r`, interval `4`. -/
def specStepParams (delay distance : ℚ) : ℚ × ℚ :=
  let r := delay / distance
  if 4 ≤ r then (1, 1)
  else if 1 ≤ r then (((⌊r⌋ : ℤ) : ℚ) * 4, 4)
  else (4 / r, 4)

/-- Modelled from the claim's words: number of steps
`= ⌊distance / stepSize⌋`. -/
def specNumSteps (delay distance : ℚ) : ℤ :=
  ⌊distance / (specStepParams delay distance).1⌋

/-- Externally visible actions `scrollTop` can perform. -/
inductive Effect where
  | scrollTo (x y : ℚ)
  | startInterval (delayMs : ℚ)
  | stopPropagation
deriving DecidableEq

/-- Parameters captured by the animation closure when a smooth scroll is
started (lines 549–565). -/
structure AnimStart where
  current : ℚ
  target : ℚ
  unitScroll : ℚ
  unitDelay : ℚ
  count : ℤ
  direction : Bool
deriving DecidableEq

/-- Result of one `scrollTop` call: the emitted effects in order, the
instance's `onSmoothScroll` flag after the call, and the animation
parameters when a timer was started. -/
structure ScrollTopResult where
  effects : List Effect
  onSmoothScroll : Bool
  anim : Option AnimStart
deriving DecidableEq

/-- `scrollTop` (lines 515–571).  The guard at lines 516–518 returns
before anything else when the instance is hidden.  Otherwise the raw
target is computed; on a click with smooth scroll enabled the line-532
assignment runs, the step parameters and count are derived and an
interval timer is started (`onSmoothScroll` ends up `true`: line 540
sets it `false`, line 551 `true`); any other event scrolls immediately.
Every non-hidden path ends with `e.stopPropagation()`. -/
def scrollTopRun (shown onSmoothScroll0 : Bool) (m : Measures)
    (s : ScrollSettings) (clientY : ℚ) (eventType : String) :
    ScrollTopResult :=
  if shown = false then
    { effects := [], onSmoothScroll := onSmoothScroll0, anim := none }
  else
    let target := scrollTarget m s clientY
    if eventType = "click" ∧ s.smoothScroll = true then
      let current := m.scrollY
      let maxTarget := m.baseOuterH
      let target2 := clampTarget target maxTarget
      let direction := decide (current < target2)
      let distance := |current - target2|
      let p := stepParams s.smoothScrollDelay distance
      let count := jsParseIntNum (distance / p.1)
      { effects := [.startInterval p.2, .stopPropagation],
        onSmoothScroll := true,
        anim := some ⟨current, target2, p.1, p.2, count, direction⟩ }
    else
      { effects := [.scrollTo m.scrollX target, .stopPropagation],
        onSmoothScroll := onSmoothScroll0, anim := none }

/-! ## The animated-scroll timer (lines 549–565)

The callback `smoothScroll` is a plain `function` expression, not an
arrow function, so the `this` inside it is the receiver supplied by the
timer invocation — the global object in browsers (HTML timers call their
callbacks with the global `this` even in strict mode), a timer handle in
Node — and never the `MiniMap` instance.  (The legacy variant
`src/minimap-old.js` lines 291–302 wrote a plain closure *variable*
`onSmoothScroll`, which did work; the class port switched the reads to
`this.onSmoothScroll` but kept the plain `function`.)  The state below
therefore carries the instance's flag and the callback-receiver's flag
separately. -/

structure ScrollAnim where
  next : ℚ
  count : ℤ
  timerActive : Bool
  scrollY : ℚ
  instOnSmoothScroll : Bool
  timerThisOnSmoothScroll : Bool
deriving DecidableEq

/-- One timer tick (lines 554–563): advance `next` by `±unitScroll`;
decrement `count`; if it reached `0` clear the timer, set
`this.onSmoothScroll = false` (on the callback's `this`, i.e. the
timer receiver — the instance flag is untouched) and snap `next` to
`target`; finally `window.scrollTo(scrollX, next)`. -/
def smoothScrollTick (direction : Bool) (unitScroll target : ℚ)
    (s : ScrollAnim) : ScrollAnim :=
  let next1 := s.next + (if direction then unitScroll else -unitScroll)
  let count1 := s.count - 1
  if count1 ≤ 0 then
    { next := target, count := count1, timerActive := false,
      scrollY := target, instOnSmoothScroll := s.instOnSmoothScroll,
      timerThisOnSmoothScroll := false }
  else
    { s with next := next1, count := count1, scrollY := next1 }

/-- `n` timer firings: the callback runs only while the interval is
uncancelled (after `clearInterval` the state is final). -/
def runTicks (direction : Bool) (unitScroll target : ℚ) :
    Nat → ScrollAnim → ScrollAnim
  | 0, s => s
  | n + 1, s =>
    runTicks direction unitScroll target n
      (if s.timerActive then smoothScrollTick direction unitScroll target s
       else s)

/-- State right after `window.setInterval` is called (lines 549–551,
565): `next` starts at the current offset, the counter is precomputed,
the timer is live, the instance flag was just set `true`; the global's
`onSmoothScroll` slot starts unset (modelled `false`). -/
def initAnim (current : ℚ) (count : ℤ) : ScrollAnim :=
  { next := current, count := count, timerActive := true,
    scrollY := current, instOnSmoothScroll := true,
    timerThisOnSmoothScroll := false }

/-- The drag-move gate (lines 433–441): the mouse-move handler calls
`scrollTop` iff the button is down and the instance's `onSmoothScroll`
flag is clear. -/
def mouseMoveTriggersScroll (mousedown onSmoothScroll : Bool) : Bool :=
  mousedown && !onSmoothScroll

/-! ## Substring occurrence ("the message names X") -/

/-- `sub` begins `hay`. -/
def chPrefix (sub hay : List Char) : Bool :=
  match sub, hay with
  | [], _ => true
  | _ :: _, [] => false
  | a :: as, b :: bs => a == b && chPrefix as bs

/-- `sub` occurs contiguously somewhere in `hay`. -/
def chContains (sub : List Char) : List Char → Bool
  | [] => sub.isEmpty
  | c :: rest => chPrefix sub (c :: rest) || chContains sub rest

/-- An error message mentions a name iff the name occurs in it. -/
def mentions (msg sub : String) : Bool :=
  chContains sub.data msg.data

/-! ## Helper lemmas -/

theorem jsTrunc_eq_floor (q : ℚ) (h : 0 ≤ q) : jsTrunc q = ⌊q⌋ := by
  unfold jsTrunc
  rw [if_pos h]

theorem jsTrunc_intCast (n : ℤ) : jsTrunc ((n : ℤ) : ℚ) = n := by
  unfold jsTrunc
  by_cases h : (0:ℚ) ≤ (n : ℚ)
  · rw [if_pos h, Int.floor_intCast]
  · rw [if_neg h]
    rw [show (-(n:ℚ)) = (((-n : ℤ) : ℚ)) by push_cast; ring]
    rw [Int.floor_intCast]
    ring

theorem toInt32_lt (q : ℚ) : toInt32 q < 2147483648 := by
  unfold toInt32
  have h1 : 0 ≤ jsTrunc q % 4294967296 :=
    Int.emod_nonneg (jsTrunc q) (by norm_num)
  have h2 : jsTrunc q % 4294967296 < 4294967296 :=
    Int.emod_lt_of_pos (jsTrunc q) (by norm_num)
  split <;> omega

theorem toInt32_small (n : ℤ) (h0 : 0 ≤ n) (h1 : n < 2147483648) :
    toInt32 ((n : ℤ) : ℚ) = n := by
  unfold toInt32
  rw [jsTrunc_intCast, Int.emod_eq_of_lt h0 (by omega)]
  simp only [if_pos h1]

theorem runTicks_succ (d : Bool) (u t : ℚ) (n : Nat) (s : ScrollAnim) :
    runTicks d u t (n + 1) s =
      runTicks d u t n
        (if s.timerActive then smoothScrollTick d u t s else s) := rfl

theorem runTicks_inactive (d : Bool) (u t : ℚ) :
    ∀ (n : Nat) (s : ScrollAnim), s.timerActive = false →
      runTicks d u t n s = s
  | 0, _, _ => rfl
  | n + 1, s, h => by
    rw [runTicks_succ, if_neg (by simp [h])]
    exact runTicks_inactive d u t n s h

theorem smoothScrollTick_final (d : Bool) (u t : ℚ) (s : ScrollAnim)
    (h : s.count ≤ 1) :
    smoothScrollTick d u t s =
      { next := t, count := s.count - 1, timerActive := false,
        scrollY := t, instOnSmoothScroll := s.instOnSmoothScroll,
        timerThisOnSmoothScroll := false } := by
  unfold smoothScrollTick
  rw [if_pos (by omega)]

theorem runTicks_reaches (d : Bool) (u t : ℚ) :
    ∀ (n : Nat) (s : ScrollAnim), s.timerActive = true →
      s.count ≤ (n : ℤ) + 1 →
      (runTicks d u t (n + 1) s).timerActive = false ∧
      (runTicks d u t (n + 1) s).scrollY = t ∧
      (runTicks d u t (n + 1) s).next = t ∧
      (runTicks d u t (n + 1) s).instOnSmoothScroll = s.instOnSmoothScroll ∧
      (runTicks d u t (n + 1) s).timerThisOnSmoothScroll = false
  | 0, s, ha, hc => by
    rw [runTicks_succ, if_pos ha,
      smoothScrollTick_final d u t s (by push_cast at hc; omega)]
    simp [runTicks]
  | n + 1, s, ha, hc => by
    by_cases hfin : s.count ≤ 1
    · rw [runTicks_succ, if_pos ha, smoothScrollTick_final d u t s hfin,
        runTicks_inactive d u t (n + 1) _ rfl]
      simp
    · have step :
          smoothScrollTick d u t s =
            { s with
              next := s.next + (if d then u else -u),
              count := s.count - 1,
              scrollY := s.next + (if d then u else -u) } := by
        unfold smoothScrollTick
        rw [if_neg (by omega)]
      rw [runTicks_succ, if_pos ha, step]
      have ih := runTicks_reaches d u t n
        { s with
          next := s.next + (if d then u else -u),
          count := s.count - 1,
          scrollY := s.next + (if d then u else -u) }
        ha (by push_cast at hc ⊢; omega)
      exact ⟨ih.1, ih.2.1, ih.2.2.1, ih.2.2.2.1, ih.2.2.2.2⟩

theorem chPrefix_self_append : ∀ (sub t : List Char),
    chPrefix sub (sub ++ t) = true
  | [], _ => rfl
  | a :: as, t => by
    simp only [List.cons_append, chPrefix, beq_self_eq_true, Bool.true_and]
    exact chPrefix_self_append as t

theorem chContains_self_append : ∀ (sub t : List Char),
    chContains sub (sub ++ t) = true
  | [], [] => rfl
  | [], c :: rest => by simp [chContains, chPrefix]
  | a :: as, t => by
    simp only [List.cons_append, chContains, Bool.or_eq_true]
    exact Or.inl (chPrefix_self_append (a :: as) t)

theorem chContains_mid : ∀ (pre sub t : List Char),
    chContains sub (pre ++ (sub ++ t)) = true
  | [], sub, t => by simpa using chContains_self_append sub t
  | p :: ps, sub, t => by
    simp only [List.cons_append, chContains, Bool.or_eq_true]
    exact Or.inr (chContains_mid ps sub t)

theorem mentions_split (msg a sub b : String) (h : msg = a ++ (sub ++ b)) :
    mentions msg sub = true := by
  subst h
  unfold mentions
  rw [String.data_append, String.data_append]
  exact chContains_mid a.data sub.data b.data

theorem allowClickV_names (v : JSVal) (msg : String)
    (h : allowClickV v = .error msg) :
    mentions msg "allowClick" = true ∧ mentions msg (jsShow v) = true := by
  unfold allowClickV at h
  split at h
  · injection h with h2
    subst h2
    exact ⟨mentions_split _ "Invalid " "allowClick" (": " ++ jsShow v) rfl,
      mentions_split _ "Invalid allowClick: " (jsShow v) ""
        (by rw [String.append_empty])⟩
  · simp at h

theorem fadeHoverV_names (v : JSVal) (msg : String)
    (h : fadeHoverV v = .error msg) :
    mentions msg "fadeHover" = true ∧ mentions msg (jsShow v) = true := by
  unfold fadeHoverV at h
  split at h
  · injection h with h2
    subst h2
    exact ⟨mentions_split _ "Invalid " "fadeHover" (": " ++ jsShow v) rfl,
      mentions_split _ "Invalid fadeHover: " (jsShow v) ""
        (by rw [String.append_empty])⟩
  · simp at h

theorem hoverOpacityV_names (v : JSVal) (msg : String)
    (h : hoverOpacityV v = .error msg) :
    mentions msg "hoverOpacity" = true ∧ mentions msg (jsShow v) = true := by
  unfold hoverOpacityV at h
  split at h
  · injection h with h2
    subst h2
    exact ⟨mentions_split _ "Invalid " "hoverOpacity" (": " ++ jsShow v) rfl,
      mentions_split _ "Invalid hoverOpacity: " (jsShow v) ""
        (by rw [String.append_empty])⟩
  · simp at h

theorem hoverFadeSpeedV_names (v : JSVal) (msg : String)
    (h : hoverFadeSpeedV v = .error msg) :
    mentions msg "hoverFadeSpeed" = true ∧ mentions msg (jsShow v) = true := by
  unfold hoverFadeSpeedV at h
  split at h
  · injection h with h2
    subst h2
    exact ⟨mentions_split _ "Invalid " "hoverFadeSpeed" (": " ++ jsShow v) rfl,
      mentions_split _ "Invalid hoverFadeSpeed: " (jsShow v) ""
        (by rw [String.append_empty])⟩
  · simp at h

theorem disableFindV_names (v : JSVal) (msg : String)
    (h : disableFindV v = .error msg) :
    mentions msg "disableFind" = true ∧ mentions msg (jsShow v) = true := by
  unfold disableFindV at h
  split at h
  · injection h with h2
    subst h2
    exact ⟨mentions_split _ "Invalid " "disableFind" (": " ++ jsShow v) rfl,
      mentions_split _ "Invalid disableFind: " (jsShow v) ""
        (by rw [String.append_empty])⟩
  · simp at h

theorem heightRatioV_names (v : JSVal) (msg : String)
    (h : heightRatioV v = .error msg) :
    mentions msg "heightRatio" = true ∧ mentions msg (jsShow v) = true := by
  unfold heightRatioV at h
  split at h
  · injection h with h2
    subst h2
    exact ⟨mentions_split _ "Invalid " "heightRatio" (": " ++ jsShow v) rfl,
      mentions_split _ "Invalid heightRatio: " (jsShow v) ""
        (by rw [String.append_empty])⟩
  · simp at h

theorem widthRatioV_names (v : JSVal) (msg : String)
    (h : widthRatioV v = .error msg) :
    mentions msg "widthRatio" = true ∧ mentions msg (jsShow v) = true := by
  unfold widthRatioV at h
  split at h
  · injection h with h2
    subst h2
    exact ⟨mentions_split _ "Invalid " "widthRatio" (": " ++ jsShow v) rfl,
      mentions_split _ "Invalid widthRatio: " (jsShow v) ""
        (by rw [String.append_empty])⟩
  · simp at h

theorem offsetHeightRatioV_names (v : JSVal) (msg : String)
    (h : offsetHeightRatioV v = .error msg) :
    mentions msg "offsetHeightRatio" = true ∧
      mentions msg (jsShow v) = true := by
  unfold offsetHeightRatioV at h
  split at h
  · injection h with h2
    subst h2
    exact ⟨mentions_split _ "Invalid " "offsetHeightRatio" (": " ++ jsShow v)
        rfl,
      mentions_split _ "Invalid offsetHeightRatio: " (jsShow v) ""
        (by rw [String.append_empty])⟩
  · simp at h

theorem offsetWidthRatioV_names (v : JSVal) (msg : String)
    (h : offsetWidthRatioV v = .error msg) :
    mentions msg "offsetWidthRatio" = true ∧
      mentions msg (jsShow v) = true := by
  unfold offsetWidthRatioV at h
  split at h
  · injection h with h2
    subst h2
    exact ⟨mentions_split _ "Invalid " "offsetWidthRatio" (": " ++ jsShow v)
        rfl,
      mentions_split _ "Invalid offsetWidthRatio: " (jsShow v) ""
        (by rw [String.append_empty])⟩
  · simp at h

theorem positionV_names (v : JSVal) (msg : String)
    (h : positionV v = .error msg) :
    mentions msg "position" = true ∧ mentions msg (jsShow v) = true := by
  unfold positionV at h
  split at h
  · simp at h
  · injection h with h2
    subst h2
    exact ⟨mentions_split _ "Invalid " "position" (": " ++ jsShow v) rfl,
      mentions_split _ "Invalid position: " (jsShow v) ""
        (by rw [String.append_empty])⟩

theorem smoothScrollDelayV_names (v : JSVal) (msg : String)
    (h : smoothScrollDelayV v = .error msg) :
    mentions msg "smoothScrollDelay" = true ∧
      mentions msg (jsShow v) = true := by
  unfold smoothScrollDelayV at h
  split at h
  · injection h with h2
    subst h2
    exact ⟨mentions_split _ "Invalid " "smoothScrollDelay"
        ("(in ms): " ++ jsShow v) rfl,
      mentions_split _ "Invalid smoothScrollDelay(in ms): " (jsShow v) ""
        (by rw [String.append_empty])⟩
  · simp at h

theorem onPreviewChangeV_names (v : JSVal) (msg : String)
    (h : onPreviewChangeV v = .error msg) :
    mentions msg "onPreviewChange" = true ∧
      mentions msg (jsShow v) = true := by
  unfold onPreviewChangeV at h
  split at h
  · injection h with h2
    subst h2
    exact ⟨mentions_split _ "Invalid " "onPreviewChange" (": " ++ jsShow v)
        rfl,
      mentions_split _ "Invalid onPreviewChange: " (jsShow v) ""
        (by rw [String.append_empty])⟩
  · simp at h

theorem countClassF_append (c : String) :
    ∀ (a b : DomForest),
      countClassF c (a.append b) = countClassF c a + countClassF c b
  | .nil, b => by simp [DomForest.append, countClassF]
  | .cons t ts, b => by
    simp only [DomForest.append, countClassF, countClassF_append c ts b]
    omega

mutual

theorem stripF_noRegion (anc : Bool) :
    ∀ ts : DomForest, countClassF "miniregion" (stripF anc ts) = 0
  | .nil => rfl
  | .cons t ts => by
    by_cases h : removedBySelectors anc t = true
    · simp only [stripF, h, if_true]
      exact stripF_noRegion anc ts
    · simp only [stripF, h, if_false, Bool.false_eq_true, countClassF]
      rw [stripKeep_noRegion anc t
          (by
            unfold removedBySelectors at h
            simp only [Bool.or_eq_true, Bool.and_eq_true] at h
            simpa using fun hc => h (Or.inr hc)),
        stripF_noRegion anc ts]

theorem stripKeep_noRegion (anc : Bool) :
    ∀ t : DomTree, hasClass "miniregion" t = false →
      countClass "miniregion" (stripKeep anc t) = 0
  | .mk cls ch, h => by
    unfold hasClass DomTree.classes at h
    simp only [stripKeep, countClass, h, if_false,
      stripF_noRegion (anc || cls.contains "minimap") ch]
    decide

end

mutual

theorem stripF_noPair (anc : Bool) :
    ∀ ts : DomForest, countPairMatchF anc (stripF anc ts) = 0
  | .nil => rfl
  | .cons t ts => by
    by_cases h : removedBySelectors anc t = true
    · simp only [stripF, h, if_true]
      exact stripF_noPair anc ts
    · simp only [stripF, h, if_false, Bool.false_eq_true, countPairMatchF]
      rw [stripKeep_noPair anc t
          (by
            unfold removedBySelectors at h
            simp only [Bool.or_eq_true] at h
            simpa using fun hc => h (Or.inl hc)),
        stripF_noPair anc ts]

theorem stripKeep_noPair (anc : Bool) :
    ∀ t : DomTree, (hasClass "noselect" t && anc) = false →
      countPairMatch anc (stripKeep anc t) = 0
  | .mk cls ch, h => by
    unfold hasClass DomTree.classes at h
    simp only [stripKeep, countPairMatch, h, if_false,
      stripF_noPair (anc || cls.contains "minimap") ch]
    decide

end

theorem disableFindGo_emit : ∀ (stop : Bool) (cs : List Char),
    disableFindGo stop cs =
      ((cs.zip (tagStates stop cs)).map (fun p => emitFor p.1 p.2)).flatten
  | _, [] => rfl
  | stop, c :: cs => by
    simp only [disableFindGo, tagStates, List.zip_cons_cons, List.map_cons,
      List.flatten, emitFor, disableFindGo_emit (tagStop stop c) cs]
    cases hs : tagStop stop c <;> simp [List.append_assoc, List.zip]

/-! ## Claim theorems -/

/-- C1: the claimed clamp of the click target into `[0, sourceOuterHeight]`
never happens: `Math.max(target, Math.min(target, maxTarget))` (line 532)
is the identity on `target`, so a computed target of `2000` with
`sourceOuterHeight = 1000` is used as the animation destination unchanged
(outside `[0, 1000]`), and a negative target passes through below `0`. -/
theorem c1_clamp_is_noop_bug :
    (∀ t mt : ℚ, clampTarget t mt = t) ∧
    (scrollTopRun true false
      { winW := 1000, winH := 500, baseW := 1000, baseH := 500,
        baseOffsetTop := 0, regionOuterH := 0, baseOuterH := 1000,
        scrollX := 0, scrollY := 0 }
      { heightRatio := 1, widthRatio := 1/2, offsetHeightRatio := 0,
        smoothScroll := true, smoothScrollDelay := 200 }
      2000 "click").anim = some ⟨0, 2000, 40, 4, 50, true⟩ ∧
    ¬((2000 : ℚ) ≤ 1000) ∧
    clampTarget (-50) 1000 = -50 ∧ ¬((0 : ℚ) ≤ clampTarget (-50) 1000) :=
  ⟨fun t mt => max_eq_left (min_le_left t mt),
    by decide, by decide, by decide, by decide⟩

/-- C2: the animated scroll started by a click (current `0`, target
`1000`, delay `200` ms — step `20`, counter `50`) sets the instance's
`onSmoothScroll` to `true`, but the final tick's
`this.onSmoothScroll = false` runs on the timer callback's `this` (the
callback is a plain `function`, not an arrow), so after the timer is
cleared the instance flag is *still* `true` and the drag-move gate keeps
suppressing scrolls — the claim that the flag returns to `false` on the
final tick fails. -/
theorem c2_instance_flag_never_reset :
    (scrollTopRun true false
      { winW := 1000, winH := 500, baseW := 1000, baseH := 500,
        baseOffsetTop := 0, regionOuterH := 0, baseOuterH := 2000,
        scrollX := 0, scrollY := 0 }
      { heightRatio := 1, widthRatio := 1/2, offsetHeightRatio := 0,
        smoothScroll := true, smoothScrollDelay := 200 }
      1000 "click").anim = some ⟨0, 1000, 20, 4, 50, true⟩ ∧
    (scrollTopRun true false
      { winW := 1000, winH := 500, baseW := 1000, baseH := 500,
        baseOffsetTop := 0, regionOuterH := 0, baseOuterH := 2000,
        scrollX := 0, scrollY := 0 }
      { heightRatio := 1, widthRatio := 1/2, offsetHeightRatio := 0,
        smoothScroll := true, smoothScrollDelay := 200 }
      1000 "click").onSmoothScroll = true ∧
    runTicks true 20 1000 50 (initAnim 0 50) =
      { next := 1000, count := 0, timerActive := false, scrollY := 1000,
        instOnSmoothScroll := true, timerThisOnSmoothScroll := false } ∧
    mouseMoveTriggersScroll true
      (runTicks true 20 1000 50 (initAnim 0 50)).instOnSmoothScroll
        = false ∧
    mouseMoveTriggersScroll true false = true := by
  refine ⟨by decide, by decide, by decide, by decide, by decide⟩

/-- C3: for every start offset, target and validated delay, the animated
scroll terminates: after `max(count, 1)` timer ticks (the counter is
decremented every tick and the final tick fires `clearInterval`), the
timer is cleared and the scroll offset — and the internal `next` — equal
the target exactly. -/
theorem c3_animation_terminates_exactly (current target delay : ℚ)
    (_hdelay : 4 ≤ delay) :
    (runTicks (decide (current < target))
        (stepParams delay |current - target|).1 target
        (max (jsParseIntNum (|current - target| /
          (stepParams delay |current - target|).1)).toNat 1)
        (initAnim current (jsParseIntNum (|current - target| /
          (stepParams delay |current - target|).1)))).timerActive = false ∧
    (runTicks (decide (current < target))
        (stepParams delay |current - target|).1 target
        (max (jsParseIntNum (|current - target| /
          (stepParams delay |current - target|).1)).toNat 1)
        (initAnim current (jsParseIntNum (|current - target| /
          (stepParams delay |current - target|).1)))).scrollY = target ∧
    (runTicks (decide (current < target))
        (stepParams delay |current - target|).1 target
        (max (jsParseIntNum (|current - target| /
          (stepParams delay |current - target|).1)).toNat 1)
        (initAnim current (jsParseIntNum (|current - target| /
          (stepParams delay |current - target|).1)))).next = target := by
  set c := jsParseIntNum (|current - target| /
    (stepParams delay |current - target|).1) with hcdef
  set u := (stepParams delay |current - target|).1 with hudef
  obtain ⟨n, hn⟩ : ∃ n : ℕ, max c.toNat 1 = n + 1 :=
    ⟨max c.toNat 1 - 1, by omega⟩
  have h3 : ((max c.toNat 1 : ℕ) : ℤ) = (n : ℤ) + 1 := by exact_mod_cast hn
  have hcount : (initAnim current c).count ≤ (n : ℤ) + 1 := by
    show c ≤ (n : ℤ) + 1
    have h1 : c ≤ (c.toNat : ℤ) := Int.self_le_toNat c
    have h2 : ((c.toNat : ℕ) : ℤ) ≤ ((max c.toNat 1 : ℕ) : ℤ) := by
      exact_mod_cast le_max_left c.toNat 1
    omega
  rw [hn]
  have h := runTicks_reaches (decide (current < target)) u target n
    (initAnim current c) rfl hcount
  exact ⟨h.1, h.2.1, h.2.2.1⟩

/-- C3 witness: the spec's own example — start `0`, target `1000`, delay
`200` ms — instantiates the termination theorem. -/
theorem c3_animation_terminates_exactly_witness :
    ((4 : ℚ) ≤ 200) ∧
    ((runTicks (decide ((0 : ℚ) < 1000))
        (stepParams 200 |(0 : ℚ) - 1000|).1 1000
        (max (jsParseIntNum (|(0 : ℚ) - 1000| /
          (stepParams 200 |(0 : ℚ) - 1000|).1)).toNat 1)
        (initAnim 0 (jsParseIntNum (|(0 : ℚ) - 1000| /
          (stepParams 200 |(0 : ℚ) - 1000|).1)))).timerActive = false ∧
    (runTicks (decide ((0 : ℚ) < 1000))
        (stepParams 200 |(0 : ℚ) - 1000|).1 1000
        (max (jsParseIntNum (|(0 : ℚ) - 1000| /
          (stepParams 200 |(0 : ℚ) - 1000|).1)).toNat 1)
        (initAnim 0 (jsParseIntNum (|(0 : ℚ) - 1000| /
          (stepParams 200 |(0 : ℚ) - 1000|).1)))).scrollY = 1000 ∧
    (runTicks (decide ((0 : ℚ) < 1000))
        (stepParams 200 |(0 : ℚ) - 1000|).1 1000
        (max (jsParseIntNum (|(0 : ℚ) - 1000| /
          (stepParams 200 |(0 : ℚ) - 1000|).1)).toNat 1)
        (initAnim 0 (jsParseIntNum (|(0 : ℚ) - 1000| /
          (stepParams 200 |(0 : ℚ) - 1000|).1)))).next = 1000) :=
  ⟨by norm_num, c3_animation_terminates_exactly 0 1000 200 (by norm_num)⟩

/-- C4: for a positive distance and a validated delay, the step
parameters computed by `scrollTop` agree with the specification's rule on
`r = delay / distance` (`r ≥ 4`: step 1, interval 1 ms; `r ≥ 1`: step
`⌊r⌋ × 4`, interval 4 ms; otherwise step `4 / r`, interval 4 ms), and the
step counter is `⌊distance / stepSize⌋`. -/
theorem c4_step_params_as_specified (delay distance : ℚ)
    (hdelay : 4 ≤ delay) (hdist : 0 < distance) :
    stepParams delay distance = specStepParams delay distance ∧
    jsParseIntNum (distance / (stepParams delay distance).1) =
      specNumSteps delay distance := by
  have hne : distance ≠ 0 := ne_of_gt hdist
  have hr0 : 0 < delay / distance := div_pos (by linarith) hdist
  by_cases h4 : (4 : ℚ) ≤ delay / distance
  · constructor
    · simp only [stepParams, specStepParams, if_neg hne, if_pos h4]
    · simp only [stepParams, specStepParams, specNumSteps, if_neg hne,
        if_pos h4]
      exact jsTrunc_eq_floor _ (div_nonneg (le_of_lt hdist) (by norm_num))
  · by_cases h1 : (1 : ℚ) ≤ delay / distance
    · have hfl : jsParseIntNum (delay / distance) = ⌊delay / distance⌋ :=
        jsTrunc_eq_floor _ (le_of_lt hr0)
      have hfl1 : (1 : ℤ) ≤ ⌊delay / distance⌋ := by
        rw [Int.le_floor]
        exact_mod_cast h1
      have hu : (0 : ℚ) < (⌊delay / distance⌋ : ℚ) * 4 := by
        have hcast : (1 : ℚ) ≤ (⌊delay / distance⌋ : ℚ) := by
          exact_mod_cast hfl1
        linarith
      constructor
      · simp only [stepParams, specStepParams, if_neg hne, if_neg h4,
          if_pos h1, hfl]
      · simp only [stepParams, specStepParams, specNumSteps, if_neg hne,
          if_neg h4, if_pos h1, hfl]
        exact jsTrunc_eq_floor _ (div_nonneg (le_of_lt hdist) (le_of_lt hu))
    · have hu : (0 : ℚ) < 4 / (delay / distance) :=
        div_pos (by norm_num) hr0
      constructor
      · simp only [stepParams, specStepParams, if_neg hne, if_neg h4,
          if_neg h1]
      · simp only [stepParams, specStepParams, specNumSteps, if_neg hne,
          if_neg h4, if_neg h1]
        exact jsTrunc_eq_floor _ (div_nonneg (le_of_lt hdist) (le_of_lt hu))

/-- C4 witness: delay `200`, distance `1000` (`r = 1/5 < 1`, step `20`,
interval `4`, `50` steps) instantiates the step-parameter theorem. -/
theorem c4_step_params_as_specified_witness :
    ((4 : ℚ) ≤ 200) ∧ ((0 : ℚ) < 1000) ∧
    (stepParams 200 1000 = specStepParams 200 1000 ∧
      jsParseIntNum ((1000 : ℚ) / (stepParams 200 1000).1) =
        specNumSteps 200 1000) :=
  ⟨by norm_num, by norm_num,
    c4_step_params_as_specified 200 1000 (by norm_num) (by norm_num)⟩

/-- C5 counterexample: `2147483648 = 2^31` is an integer `≥ 4`, yet the
validator rejects it — `(value | 0)` wraps to `-2^31`, so the claimed
"accepts iff integer `≥ 4`" fails at the 32-bit boundary. -/
theorem c5_int32_boundary_counterexample :
    smoothScrollDelayV (.num 2147483648) =
      .error "Invalid smoothScrollDelay(in ms): 2147483648" ∧
    (2147483648 : ℚ).den = 1 ∧ (4 : ℚ) ≤ 2147483648 := by
  refine ⟨by decide, by decide, by decide⟩

/-- C5 (amended): the `smoothScrollDelay` validator accepts a number iff
it is an integer with `4 ≤ value < 2^31` (the `| 0` round-trip restricts
to the 32-bit range); in particular `3`, `4.5` and `-5` are rejected
while `4` and `500` are accepted. -/
theorem c5_delay_validator_amended :
    (∀ q : ℚ, smoothScrollDelayV (.num q) = .ok () ↔
      (q.den = 1 ∧ 4 ≤ q ∧ q < 2147483648)) ∧
    smoothScrollDelayV (.num 3) =
      .error "Invalid smoothScrollDelay(in ms): 3" ∧
    smoothScrollDelayV (.num (9/2)) =
      .error "Invalid smoothScrollDelay(in ms): 9/2" ∧
    smoothScrollDelayV (.num (-5)) =
      .error "Invalid smoothScrollDelay(in ms): -5" ∧
    smoothScrollDelayV (.num 4) = .ok () ∧
    smoothScrollDelayV (.num 500) = .ok () := by
  refine ⟨?_, by decide, by decide, by decide, by decide, by decide⟩
  intro q
  simp only [smoothScrollDelayV, int32RoundTrips, numOf]
  constructor
  · intro h
    by_cases hcond : (decide ((toInt32 q : ℚ) = q) = false ∨ q < 4)
    · rw [if_pos hcond] at h
      exact absurd h (by simp)
    · obtain ⟨ha, hb⟩ := not_or.mp hcond
      have hdt : decide ((toInt32 q : ℚ) = q) = true := by simpa using ha
      have heq : ((toInt32 q : ℤ) : ℚ) = q := of_decide_eq_true hdt
      refine ⟨?_, le_of_not_lt hb, ?_⟩
      · rw [← heq]
        exact Rat.den_intCast _
      · calc q = ((toInt32 q : ℤ) : ℚ) := heq.symm
          _ < ((2147483648 : ℤ) : ℚ) := by exact_mod_cast toInt32_lt q
          _ = 2147483648 := by norm_num
  · rintro ⟨hden, h4, hlt⟩
    have hq : (q.num : ℚ) = q := (Rat.den_eq_one_iff q).mp hden
    have h0 : (0 : ℤ) ≤ q.num := by
      have hq0 : (0 : ℚ) ≤ q := le_trans (by norm_num) h4
      rw [← hq] at hq0
      exact_mod_cast hq0
    have hl : q.num < 2147483648 := by
      rw [← hq] at hlt
      exact_mod_cast hlt
    have ht : toInt32 q = q.num := by
      conv_lhs => rw [← hq]
      exact toInt32_small q.num h0 hl
    have hcond : ¬(decide ((toInt32 q : ℚ) = q) = false ∨ q < 4) :=
      not_or.mpr ⟨by simp [ht, hq], not_lt.mpr h4⟩
    rw [if_neg hcond]

/-- C6 counterexample: `setPosition('Right')` raises
`Invalid position: Right` — the setter validates the raw argument without
lowercasing, so the claim that `"Right"` is accepted by `setPosition`
fails. -/
theorem c6_setPosition_case_counterexample :
    setPositionModel "right" "Right" = .error "Invalid position: Right" := by
  decide

/-- C6 (amended): `position` is case-insensitive *at construction* —
`"Right"` is lowercased before validation and stored as `"right"`,
behaving exactly like `"right"` — but `setPosition` validates without
normalizing, so `setPosition("Right")` raises a validation error while
`setPosition("right")` succeeds (re-laying out only on an actual
change). -/
theorem c6_position_case_amended :
    constructorSettingsPhase [("position", JSVal.str "Right")] =
      constructorSettingsPhase [("position", JSVal.str "right")] ∧
    jsToLowerCase "Right" = "right" ∧
    (match constructorSettingsPhase [("position", JSVal.str "Right")] with
     | .ok s => lookupVal "position" s
     | .error _ => none) = some (JSVal.str "right") ∧
    setPositionModel "right" "right" = .ok ("right", false) ∧
    setPositionModel "left" "right" = .ok ("right", true) ∧
    setPositionModel "right" "Right" = .error "Invalid position: Right" := by
  refine ⟨by decide, by decide, by decide, by decide, by decide, by decide⟩

/-- C7 counterexample: a document whose body already holds a stray
`minimap noselect` element and a stray `miniregion` element before
construction still holds them afterwards — after construction *two*
elements carry the preview marker and *two* carry the region marker, so
the claimed document-wide removal (leaving exactly one pair) fails. -/
theorem c7_stray_elements_survive_counterexample :
    countClassF "minimap"
      (constructDom
        (.cons (DomTree.mk ["minimap", "noselect"] .nil)
          (.cons (DomTree.mk ["miniregion"] .nil)
            (.cons (DomTree.mk [] .nil) .nil)))
        (DomTree.mk [] .nil)) = 2 ∧
    countClassF "miniregion"
      (constructDom
        (.cons (DomTree.mk ["minimap", "noselect"] .nil)
          (.cons (DomTree.mk ["miniregion"] .nil)
            (.cons (DomTree.mk [] .nil) .nil)))
        (DomTree.mk [] .nil)) = 2 := by
  refine ⟨by decide, by decide⟩

/-- C7 (amended): construction's removal is scoped to the *clone* of the
base element, not the document: the constructed document is exactly the
old body plus the new region and the scrubbed clone (for every class,
counts add up — nothing pre-existing is removed), and within the clone
the scrub leaves no `.miniregion` descendant and no `.minimap .noselect`
descendant pair. -/
theorem c7_removal_scoped_to_clone_amended :
    (∀ (c : String) (body : DomForest) (base : DomTree),
      countClassF c (constructDom body base) =
        countClassF c body + countClass c regionNode +
          countClass c (addMinimapNoselect (cloneAndStrip base))) ∧
    (∀ (anc : Bool) (ts : DomForest),
      countClassF "miniregion" (stripF anc ts) = 0) ∧
    (∀ (anc : Bool) (ts : DomForest),
      countPairMatchF anc (stripF anc ts) = 0) := by
  refine ⟨?_, stripF_noRegion, stripF_noPair⟩
  intro c body base
  unfold constructDom
  rw [countClassF_append]
  simp only [countClassF]
  omega

/-- C8 counterexample: an unknown option field `bogus` with value `123`
aborts validation with `Invalid validation property: 123` — a message
that names the rejected value but *not* the offending field, so the
claim that every validation error names the field fails. -/
theorem c8_unknown_field_message_counterexample :
    validateProps (objectAssign defaultSettings [("bogus", JSVal.num 123)]) =
      .error "Invalid validation property: 123" ∧
    mentions "Invalid validation property: 123" "bogus" = false := by
  refine ⟨by decide, by decide⟩

/-- C8 (amended): validation is atomic and synchronous — a failing known
field produces an error message naming the field and the rejected value;
an unknown field aborts with `Invalid validation property: <value>`
(naming only the value); a failed setter yields only the error (no
settings write, no layout pass), and a failed construction performs no
DOM mutation. -/
theorem c8_validation_atomic_amended :
    (∀ (k : String) (v : JSVal) (msg : String),
      runValidator k v = some (.error msg) →
        mentions msg k = true ∧ mentions msg (jsShow v) = true) ∧
    (∀ (k : String) (v : JSVal) (rest : List (String × JSVal)),
      propValidators k = none →
        validateProps ((k, v) :: rest) =
          .error ("Invalid validation property: " ++ jsShow v)) ∧
    (∀ (prop : String) (redraw : Bool) (settings : List (String × JSVal))
        (v : JSVal) (f : JSVal → Except String Unit) (e : String),
      propValidators prop = some f → f v = .error e →
        genSetPropertyFunction prop redraw settings v = .error e) ∧
    (∀ (body : DomForest) (base : DomTree)
        (opts : List (String × JSVal)) (e : String),
      constructorSettingsPhase opts = .error e →
        constructRun body base opts = .error e) := by
  refine ⟨?_, ?_, ?_, ?_⟩
  · intro k v msg h
    unfold runValidator at h
    by_cases hk1 : k = "allowClick"
    · subst hk1
      rw [show propValidators "allowClick" = some allowClickV from rfl] at h
      simp only [Option.map_some', Option.some.injEq] at h
      exact allowClickV_names v msg h
    by_cases hk2 : k = "fadeHover"
    · subst hk2
      rw [show propValidators "fadeHover" = some fadeHoverV from rfl] at h
      simp only [Option.map_some', Option.some.injEq] at h
      exact fadeHoverV_names v msg h
    by_cases hk3 : k = "hoverOpacity"
    · subst hk3
      rw [show propValidators "hoverOpacity" = some hoverOpacityV from rfl] at h
      simp only [Option.map_some', Option.some.injEq] at h
      exact hoverOpacityV_names v msg h
    by_cases hk4 : k = "hoverFadeSpeed"
    · subst hk4
      rw [show propValidators "hoverFadeSpeed" = some hoverFadeSpeedV from rfl] at h
      simp only [Option.map_some', Option.some.injEq] at h
      exact hoverFadeSpeedV_names v msg h
    by_cases hk5 : k = "disableFind"
    · subst hk5
      rw [show propValidators "disableFind" = some disableFindV from rfl] at h
      simp only [Option.map_some', Option.some.injEq] at h
      exact disableFindV_names v msg h
    by_cases hk6 : k = "heightRatio"
    · subst hk6
      rw [show propValidators "heightRatio" = some heightRatioV from rfl] at h
      simp only [Option.map_some', Option.some.injEq] at h
      exact heightRatioV_names v msg h
    by_cases hk7 : k = "widthRatio"
    · subst hk7
      rw [show propValidators "widthRatio" = some widthRatioV from rfl] at h
      simp only [Option.map_some', Option.some.injEq] at h
      exact widthRatioV_names v msg h
    by_cases hk8 : k = "offsetHeightRatio"
    · subst hk8
      rw [show propValidators "offsetHeightRatio" = some offsetHeightRatioV from rfl] at h
      simp only [Option.map_some', Option.some.injEq] at h
      exact offsetHeightRatioV_names v msg h
    by_cases hk9 : k = "offsetWidthRatio"
    · subst hk9
      rw [show propValidators "offsetWidthRatio" = some offsetWidthRatioV from rfl] at h
      simp only [Option.map_some', Option.some.injEq] at h
      exact offsetWidthRatioV_names v msg h
    by_cases hk10 : k = "position"
    · subst hk10
      rw [show propValidators "position" = some positionV from rfl] at h
      simp only [Option.map_some', Option.some.injEq] at h
      exact positionV_names v msg h
    by_cases hk11 : k = "smoothScrollDelay"
    · subst hk11
      rw [show propValidators "smoothScrollDelay" = some smoothScrollDelayV from rfl] at h
      simp only [Option.map_some', Option.some.injEq] at h
      exact smoothScrollDelayV_names v msg h
    by_cases hk12 : k = "touch"
    · subst hk12
      rw [show propValidators "touch" = some touchV from rfl] at h
      simp only [Option.map_some', Option.some.injEq] at h
      simp [touchV] at h
    by_cases hk13 : k = "smoothScroll"
    · subst hk13
      rw [show propValidators "smoothScroll" = some smoothScrollV from rfl] at h
      simp only [Option.map_some', Option.some.injEq] at h
      simp [smoothScrollV] at h
    by_cases hk14 : k = "onPreviewChange"
    · subst hk14
      rw [show propValidators "onPreviewChange" = some onPreviewChangeV from rfl] at h
      simp only [Option.map_some', Option.some.injEq] at h
      exact onPreviewChangeV_names v msg h
    have hnone : propValidators k = none := by
      unfold propValidators
      rw [if_neg hk1, if_neg hk2, if_neg hk3, if_neg hk4, if_neg hk5, if_neg hk6, if_neg hk7, if_neg hk8, if_neg hk9, if_neg hk10, if_neg hk11, if_neg hk12, if_neg hk13, if_neg hk14]
    rw [hnone] at h
    simp at h
  · intro k v rest h
    unfold validateProps
    rw [h]
  · intro prop redraw settings v f e h1 h2
    simp only [genSetPropertyFunction, h1, h2]
  · intro body base opts e h
    simp only [constructRun, h]

/-- C8 witness: concrete instantiations of the amended theorem — the
failing `heightRatio := 2` setter and construction, and the unknown
`bogus` field. -/
theorem c8_validation_atomic_amended_witness :
    (runValidator "heightRatio" (JSVal.num 2) =
        some (.error "Invalid heightRatio: 2") ∧
      mentions "Invalid heightRatio: 2" "heightRatio" = true ∧
      mentions "Invalid heightRatio: 2" (jsShow (JSVal.num 2)) = true) ∧
    (propValidators "bogus" = none ∧
      validateProps [("bogus", JSVal.num 123)] =
        .error ("Invalid validation property: " ++ jsShow (JSVal.num 123))) ∧
    (propValidators "heightRatio" = some heightRatioV ∧
      heightRatioV (JSVal.num 2) = .error "Invalid heightRatio: 2" ∧
      genSetPropertyFunction "heightRatio" true defaultSettings
        (JSVal.num 2) = .error "Invalid heightRatio: 2") ∧
    (constructorSettingsPhase [("heightRatio", JSVal.num 2)] =
        .error "Invalid heightRatio: 2" ∧
      constructRun .nil (DomTree.mk [] .nil)
        [("heightRatio", JSVal.num 2)] = .error "Invalid heightRatio: 2") :=
  ⟨⟨by decide,
    (c8_validation_atomic_amended.1 "heightRatio" (JSVal.num 2)
      "Invalid heightRatio: 2" (by decide)).1,
    (c8_validation_atomic_amended.1 "heightRatio" (JSVal.num 2)
      "Invalid heightRatio: 2" (by decide)).2⟩,
   ⟨rfl,
    c8_validation_atomic_amended.2.1 "bogus" (JSVal.num 123) [] rfl⟩,
   ⟨rfl, by decide,
    c8_validation_atomic_amended.2.2.1 "heightRatio" true defaultSettings
      (JSVal.num 2) heightRatioV "Invalid heightRatio: 2" rfl
      (by decide)⟩,
   ⟨by decide,
    c8_validation_atomic_amended.2.2.2 .nil (DomTree.mk [] .nil)
      [("heightRatio", JSVal.num 2)] "Invalid heightRatio: 2" (by decide)⟩⟩

/-- C9 counterexample: on the markup `"a b"` the code's transform differs
from the claimed one (decoy after every non-tag, non-space character
only, with exact readback): the space receives a decoy and is doubled. -/
theorem c9_space_decoy_counterexample :
    disableFindTransform "a b" ≠ ⟨specDisableFindGo false "a b".data⟩ := by
  decide

/-- C9 (amended): the transform emits, for each input character in order,
the character itself, then the decoy span whenever the *updated* tag flag
is clear — i.e. after every character outside a tag *including spaces and
each closing `>`* (only `<` and characters strictly inside `<...>` are
undecorated) — and then an extra duplicate space after every space
character; so the non-decoy output reads back as the original markup with
every space doubled. -/
theorem c9_disable_find_amended :
    (∀ (stop : Bool) (cs : List Char),
      disableFindGo stop cs =
        ((cs.zip (tagStates stop cs)).map
          (fun p => emitFor p.1 p.2)).flatten) ∧
    (∀ html : String,
      disableFindTransform html =
        ⟨((html.data.zip (tagStates false html.data)).map
          (fun p => emitFor p.1 p.2)).flatten⟩) :=
  ⟨disableFindGo_emit,
   fun html => congrArg String.mk (disableFindGo_emit false html.data)⟩

/-- C10: when the instance is hidden (`shown = false`), `scrollTop`
returns before any effect — no scroll write, no timer, no
`stopPropagation`, and the `onSmoothScroll` flag is left unchanged. -/
theorem c10_hidden_scrollTop_is_noop (osc : Bool) (m : Measures)
    (s : ScrollSettings) (clientY : ℚ) (eventType : String) :
    scrollTopRun false osc m s clientY eventType =
      { effects := [], onSmoothScroll := osc, anim := none } := rfl

end Minimap
